import Mathlib

/-!
Verification development for the OBS replay plugin
(src/OBSReplayPlugin.cpp).  The definitions below are a shallow
sequential embedding of the plugin's frame-cache and replay engine:
the FrameBuffer ring (lines 62-168), the playback pipeline
(play_cached_frames, lines 615-665), the round-trip scene switch
(play_replay_and_return, lines 715-737) and the WebSocket request
handler (on_replay_request, lines 740-755).

Modelling conventions:
* std::deque becomes List; the front of the deque is the head of the
  list, push_back appends on the right.
* shared_ptr<T> becomes Option T (null pointer = none).  Plane buffer
  pointers (the data[] arrays) become Option Nat entries: some p is an
  allocated buffer identified by p, none is a null plane pointer.
* bfree of a plane is recorded as an explicit Event.freed so that
  release of buffers can be observed in theorems.
* front()/pop_front() on an empty deque is undefined behavior in C++;
  the model makes them total (head? = none, tail of [] = []) so that
  every execution is defined.  Theorems touching that path say so.
* The buffer_mutex is dropped in the purely functional definitions; a
  separate lock-instrumented trace of play_cached_frames
  (play_cached_frames_locktrace) records acquire/release events for
  the lock-discipline analysis.  The worker play_replay_and_return
  returns a WorkerResult whose deadlocked case marks the error paths
  of play_cached_frames: there log_error re-locks the non-recursive
  buffer_mutex held since line 619, so the worker never returns and
  the code after the playback call is unreachable.
-/

/-- Video frame (obs_source_frame) as cached by the plugin: width,
height, format, timestamp, plane buffer pointers (data[], none =
nullptr) and line strides. -/
structure SourceFrame where
  width : Nat
  height : Nat
  format : Nat
  timestamp : Nat
  data : List (Option Nat)
  linesize : List Nat
deriving DecidableEq, Repr

/-- Audio frame (obs_source_audio) as cached by the plugin: sample
count (frames) and per-plane buffer pointers. -/
structure SourceAudio where
  frames : Nat
  data : List (Option Nat)
deriving DecidableEq, Repr

/-- FrameBuffer (src/OBSReplayPlugin.cpp lines 62-69): two deques of
shared_ptr frames and the fixed capacity max_frames.  The default
constructor fixes max_frames = 0; FrameBuffer(max_seconds, fps) fixes
max_frames = max_seconds * fps. -/
structure FrameBuffer where
  video_frames : List (Option SourceFrame)
  audio_frames : List (Option SourceAudio)
  max_frames : Nat
deriving DecidableEq, Repr

/-- FrameBuffer(max_seconds, fps) constructor (line 69). -/
def FrameBuffer.new (max_seconds : Nat) (fps : Nat) : FrameBuffer :=
  { video_frames := [], audio_frames := [], max_frames := max_seconds * fps }

/-- Observable effects of an admission: a bfree of one plane buffer,
or a push_back of a frame onto one of the deques. -/
inductive Event where
  | freed : Nat → Event
  | appendedVideo : SourceFrame → Event
  | appendedAudio : SourceAudio → Event
deriving DecidableEq, Repr

/-- Plane-release loop run on an evicted frame (lines 120-127 for
video, 147-153 for audio): if the shared_ptr is non-null, bfree every
non-null data[i]. -/
def freedOfVideo (o : Option SourceFrame) : List Event :=
  match o with
  | some oldest => (oldest.data.filterMap id).map Event.freed
  | none => []

/-- Plane-release loop run on an evicted audio frame. -/
def freedOfAudio (o : Option SourceAudio) : List Event :=
  match o with
  | some oldest => (oldest.data.filterMap id).map Event.freed
  | none => []

/-- FrameBuffer::add_video_frame (lines 103-137).  Skips when the
plugin is disabled or the frame pointer is null.  Otherwise, if
size() >= max_frames, the oldest frame's planes are freed and it is
popped; then, only when width > 0 and height > 0, the frame is pushed
back (an invalid frame is merely logged and dropped - its own planes
are not freed here).  Returns the new buffer and the event list of the
call. -/
def add_video_frame (enabled : Bool) (frame : Option SourceFrame) (b : FrameBuffer) :
    FrameBuffer × List Event :=
  match enabled, frame with
  | false, _ => (b, [])
  | true, none => (b, [])
  | true, some f =>
      let freed : List Event :=
        if b.max_frames ≤ b.video_frames.length then
          match b.video_frames.head? with
          | some o => freedOfVideo o
          | none => []
        else []
      let vf1 : List (Option SourceFrame) :=
        if b.max_frames ≤ b.video_frames.length then b.video_frames.tail
        else b.video_frames
      if 0 < f.width ∧ 0 < f.height then
        ({ b with video_frames := vf1 ++ [some f] }, freed ++ [Event.appendedVideo f])
      else
        ({ b with video_frames := vf1 }, freed)

/-- FrameBuffer::add_audio_frame (lines 140-157).  Skips when disabled
or null; otherwise evicts (freeing planes) when size() >= max_frames
and then pushes back unconditionally - there is no validity check on
the audio frame itself. -/
def add_audio_frame (enabled : Bool) (frame : Option SourceAudio) (b : FrameBuffer) :
    FrameBuffer × List Event :=
  match enabled, frame with
  | false, _ => (b, [])
  | true, none => (b, [])
  | true, some f =>
      let freed : List Event :=
        if b.max_frames ≤ b.audio_frames.length then
          match b.audio_frames.head? with
          | some o => freedOfAudio o
          | none => []
        else []
      let af1 : List (Option SourceAudio) :=
        if b.max_frames ≤ b.audio_frames.length then b.audio_frames.tail
        else b.audio_frames
      ({ b with audio_frames := af1 ++ [some f] }, freed ++ [Event.appendedAudio f])

/-- FrameBuffer::get_video_frames (lines 159-162): snapshot of the
video deque as a vector, by value. -/
def get_video_frames (b : FrameBuffer) : List (Option SourceFrame) :=
  b.video_frames

/-- FrameBuffer::get_audio_frames (lines 164-167). -/
def get_audio_frames (b : FrameBuffer) : List (Option SourceAudio) :=
  b.audio_frames

/-- One admission delivered to a FrameBuffer: a video or audio frame
together with the state of the plugin_enabled flag at delivery. -/
inductive Admission where
  | video : Bool → Option SourceFrame → Admission
  | audio : Bool → Option SourceAudio → Admission
deriving DecidableEq, Repr

/-- Apply one admission to a buffer (state part only). -/
def stepAdmission (a : Admission) (b : FrameBuffer) : FrameBuffer :=
  match a with
  | Admission.video e f => (add_video_frame e f b).1
  | Admission.audio e f => (add_audio_frame e f b).1

/-- Run a sequence of admissions in order. -/
def runAdmissions (adms : List Admission) (b : FrameBuffer) : FrameBuffer :=
  adms.foldl (fun b a => stepAdmission a b) b

/-- Run a sequence of enabled video admissions, collecting the event
trace of every call in order. -/
def runVideo (fs : List SourceFrame) (b : FrameBuffer) : FrameBuffer × List Event :=
  match fs with
  | [] => (b, [])
  | f :: rest =>
    let s1 := add_video_frame true (some f) b
    let s2 := runVideo rest s1.1
    (s2.1, s1.2 ++ s2.2)

/-- Frame emission and pacing effects of live playback. -/
inductive Emit where
  | audioOut : Nat → SourceAudio → Emit
  | videoOut : Nat → SourceFrame → Emit
  | sleepMs : Nat → Emit
deriving DecidableEq, Repr

/-- Failure modes of play_cached_frames, named as in the spec:
sceneUnknown = "No buffer found for scene", noCachedFrames = "No video
frames cached for scene", sinkMissing = "Replay source not found". -/
inductive PlayErr where
  | sceneUnknown
  | noCachedFrames
  | sinkMissing
deriving DecidableEq, Repr

/-- Emission loop of play_cached_frames (lines 647-660): for each
index i below the video snapshot size, output the audio element at i
if i is below the audio snapshot size and the element is non-null,
then output the video element at i if non-null, then sleep 33 ms. -/
def playLoop (audio : List (Option SourceAudio)) :
    List (Option SourceFrame) → Nat → List Emit
  | [], _ => []
  | v :: rest, i =>
    (if i < audio.length then
      match audio.getD i none with
      | some a => [Emit.audioOut i a]
      | none => []
    else []) ++
    (match v with
     | some f => [Emit.videoOut i f]
     | none => []) ++
    (Emit.sleepMs 33 :: playLoop audio rest (i + 1))

/-- The name of the replay sink source ("ReplaySource", line 174). -/
def REPLAY_SOURCE_NAME : String := "ReplaySource"

/-- The name of the replay scene ("Replay", line 173). -/
def REPLAY_SCENE_NAME : String := "Replay"

/-- play_cached_frames (lines 615-665), functional part.  Looks up the
scene's buffer in the registry, snapshots both deques, fails when the
buffer is missing or the video snapshot is empty or the replay sink
does not resolve, and otherwise runs the paced emission loop.  Returns
the emissions performed together with the error, if any.  The
buffer_mutex held across the whole body is treated separately by
play_cached_frames_locktrace. -/
def play_cached_frames (buffers : List (String × FrameBuffer))
    (sources : List String) (scene_name : String) : List Emit × Option PlayErr :=
  match buffers.lookup scene_name with
  | none => ([], some PlayErr.sceneUnknown)
  | some b =>
    let video_frames := get_video_frames b
    let audio_frames := get_audio_frames b
    if video_frames.isEmpty then ([], some PlayErr.noCachedFrames)
    else if REPLAY_SOURCE_NAME ∈ sources then
      (playLoop audio_frames video_frames 0, none)
    else ([], some PlayErr.sinkMissing)

/-- Emission sequence described by the specification of live playback:
iterate positionally over the video snapshot by index i, emit the
audio element at index i first when i is below the audio size and that
element is non-null, then the video element at index i when non-null,
pausing 33 ms per step.  Written from the spec's words, to be compared
with the loop embedded from the source. -/
def specEmitLoop (audio : List (Option SourceAudio)) :
    List (Option SourceFrame) → Nat → List Emit
  | [], _ => []
  | v :: rest, i =>
    (if i < audio.length then
      match audio.getD i none with
      | some a => [Emit.audioOut i a]
      | none => []
    else []) ++
    (match v with
     | some f => [Emit.videoOut i f]
     | none => []) ++
    (Emit.sleepMs 33 :: specEmitLoop audio rest (i + 1))

/-- Lock-related and emission events of one call of
play_cached_frames, for the lock-discipline analysis. -/
inductive LockEv where
  | acquire
  | release
  | audioOut : Nat → LockEv
  | videoOut : Nat → LockEv
  | sleepMs : Nat → LockEv
deriving DecidableEq, Repr

/-- Emission loop of play_cached_frames annotated with pacing, as lock
events. -/
def lockLoop (audio : List (Option SourceAudio)) :
    List (Option SourceFrame) → Nat → List LockEv
  | [], _ => []
  | v :: rest, i =>
    (if i < audio.length then
      match audio.getD i none with
      | some _ => [LockEv.audioOut i]
      | none => []
    else []) ++
    (match v with
     | some _ => [LockEv.videoOut i]
     | none => []) ++
    (LockEv.sleepMs 33 :: lockLoop audio rest (i + 1))

/-- play_cached_frames (lines 615-665) as a trace of buffer_mutex and
emission events.  The std::lock_guard at line 619 acquires the mutex
at entry and releases it only when the function returns, so every
emission and every 33 ms sleep of the loop happens between acquire and
release.  On the three error paths the function calls log_error, which
itself locks the same non-recursive mutex (line 204) - undefined
behavior (self-deadlock) in C++, recorded here as a second acquire
with no release. -/
def play_cached_frames_locktrace (buffers : List (String × FrameBuffer))
    (sources : List String) (scene_name : String) : List LockEv :=
  match buffers.lookup scene_name with
  | none => [LockEv.acquire, LockEv.acquire]
  | some b =>
    if (get_video_frames b).isEmpty then [LockEv.acquire, LockEv.acquire]
    else if REPLAY_SOURCE_NAME ∈ sources then
      LockEv.acquire ::
        (lockLoop (get_audio_frames b) (get_video_frames b) 0 ++ [LockEv.release])
    else [LockEv.acquire, LockEv.acquire]

/-- Bound on the error log (max_errors = 10, line 179). -/
def max_errors : Nat := 10

/-- log_error (lines 201-209), state part: drop the oldest message
when the bounded FIFO is full, then append. -/
def log_error (log : List String) (msg : String) : List String :=
  (if max_errors ≤ log.length then log.tail else log) ++ [msg]

/-- Host frontend state visible to the plugin: the names resolvable by
obs_get_source_by_name, the current program scene, and the plugin's
globals previous_scene_name (line 175) and error_log (line 178). -/
structure Frontend where
  sources : List String
  current : Option String
  previous_scene_name : String
  error_log : List String
deriving DecidableEq, Repr

/-- Externally visible actions of the round-trip replay. -/
inductive RAction where
  | setPrevious : String → RAction
  | switched : String → RAction
  | sceneNotFound : String → RAction
  | fileSaved : String → RAction
  | emitted : Emit → RAction
deriving DecidableEq, Repr

/-- switch_to_scene (lines 603-612): resolve the source by name; if
found, make it the current program scene; otherwise log the error. -/
def switch_to_scene (fe : Frontend) (name : String) : Frontend × List RAction :=
  if name ∈ fe.sources then
    ({ fe with current := some name }, [RAction.switched name])
  else
    ({ fe with error_log := log_error fe.error_log ("Scene not found: " ++ name) },
     [RAction.sceneNotFound name])

/-- Outcome of the detached replay worker.  completed carries the
frontend state and the full action trace of a run that returned;
deadlocked carries the state and the actions performed up to the point
where the worker blocks forever. -/
inductive WorkerResult where
  | completed : Frontend → List RAction → WorkerResult
  | deadlocked : Frontend → List RAction → WorkerResult
deriving DecidableEq, Repr

/-- play_replay_and_return (lines 715-737).  Records the current
program scene name in previous_scene_name when a current scene exists;
switches the program to the Replay scene; when the named scene has a
ring, saves its snapshot to a file (the muxer interaction of
save_frames_to_file, lines 668-712, is out of the core and recorded as
the single opaque action fileSaved); then runs the live playback.
When play_cached_frames takes any of its three error paths (no ring,
empty video snapshot, missing sink) it calls log_error while the
lock_guard of line 619 still holds buffer_mutex, and log_error locks
the same non-recursive mutex again (line 204): undefined behavior that
deadlocks the worker, so execution never reaches the switch-back at
line 736 and the error message is never appended (log_error blocks
before the push_back).  Only when playback returns does the worker
switch the program back to previous_scene_name. -/
def play_replay_and_return (fe : Frontend) (buffers : List (String × FrameBuffer))
    (scene_name : String) : WorkerResult :=
  let s1 :=
    match fe.current with
    | some s => ({ fe with previous_scene_name := s }, [RAction.setPrevious s])
    | none => (fe, ([] : List RAction))
  let s2 := switch_to_scene s1.1 REPLAY_SCENE_NAME
  let saveActs : List RAction :=
    match buffers.lookup scene_name with
    | some _ => [RAction.fileSaved scene_name]
    | none => []
  let pres := play_cached_frames buffers s2.1.sources scene_name
  match pres.2 with
  | some _ =>
    WorkerResult.deadlocked s2.1
      (s1.2 ++ s2.2 ++ saveActs ++ pres.1.map RAction.emitted)
  | none =>
    let s4 := switch_to_scene s2.1 s2.1.previous_scene_name
    WorkerResult.completed s4.1
      (s1.2 ++ s2.2 ++ saveActs ++ pres.1.map RAction.emitted ++ s4.2)

/-- Host helper obs_data_get_string: returns the value stored under
the key, or the empty string when the key is missing.  The OBS data
API never returns a null pointer from obs_data_get_string; a missing
or unset key yields "". -/
def obs_data_get_string (data : List (String × String)) (key : String) : String :=
  (data.lookup key).getD ""

/-- Response object filled in by the request handler; none marks a
field the handler never set. -/
structure ReplayResponse where
  success : Option Bool
  error : Option String
deriving DecidableEq, Repr

/-- create_replay_scene_and_source (lines 559-600): if a source named
Replay already exists, succeed; otherwise create the Replay scene and
the ReplaySource sink and add both to the source graph.  Host-side
creation failures are out of the model (the host is assumed to honor
the creation calls). -/
def create_replay_scene_and_source (fe : Frontend) : Frontend × Bool :=
  if REPLAY_SCENE_NAME ∈ fe.sources then (fe, true)
  else
    ({ fe with sources := fe.sources ++ [REPLAY_SCENE_NAME, REPLAY_SOURCE_NAME] }, true)

/-- on_replay_request (lines 740-755).  Reads the scene field of the
request; the null check on the result of obs_data_get_string is kept
from the source even though that call never yields null (the match
below always takes the some branch).  On the non-null path it ensures
the replay scene and sink exist, spawns the detached worker
play_replay_and_return(scene), and sets success = true in the
response.  Returns the frontend after the handler itself ran, the
response, and the scene names of the spawned workers (not yet run). -/
def on_replay_request (fe : Frontend) (request : List (String × String)) :
    Frontend × ReplayResponse × List String :=
  match some (obs_data_get_string request "scene") with
  | none =>
    (fe, { success := some false, error := some "No scene name provided" }, [])
  | some scene_name =>
    let s1 := create_replay_scene_and_source fe
    (s1.1, { success := some true, error := none }, [scene_name])

/-- Eviction removes the head: a predicate holding on every element of
a list also holds on every element of its tail. -/
theorem all_tail_of_all {α : Type} (p : α → Bool) (l : List α)
    (h : l.all p = true) : l.tail.all p = true := by
  cases l with
  | nil => simp
  | cons x t =>
    simp only [List.all_cons, Bool.and_eq_true] at h
    simpa using h.2

/-- Video admission leaves the audio deque untouched. -/
theorem add_video_frame_audio_eq (e : Bool) (f : Option SourceFrame) (b : FrameBuffer) :
    (add_video_frame e f b).1.audio_frames = b.audio_frames := by
  cases e <;> cases f
  · rfl
  · rfl
  · rfl
  · simp only [add_video_frame]; split_ifs <;> rfl

/-- Audio admission leaves the video deque untouched. -/
theorem add_audio_frame_video_eq (e : Bool) (f : Option SourceAudio) (b : FrameBuffer) :
    (add_audio_frame e f b).1.video_frames = b.video_frames := by
  cases e <;> cases f
  · rfl
  · rfl
  · rfl
  · simp only [add_audio_frame]

/-- Video admission keeps the capacity. -/
theorem add_video_frame_max_eq (e : Bool) (f : Option SourceFrame) (b : FrameBuffer) :
    (add_video_frame e f b).1.max_frames = b.max_frames := by
  cases e <;> cases f <;> simp only [add_video_frame] <;> split_ifs <;> rfl

/-- Audio admission keeps the capacity. -/
theorem add_audio_frame_max_eq (e : Bool) (f : Option SourceAudio) (b : FrameBuffer) :
    (add_audio_frame e f b).1.max_frames = b.max_frames := by
  cases e <;> cases f <;> simp only [add_audio_frame] <;> split_ifs <;> rfl

/-- Admissions never change the capacity fixed at construction. -/
theorem stepAdmission_max_frames (a : Admission) (b : FrameBuffer) :
    (stepAdmission a b).max_frames = b.max_frames := by
  cases a with
  | video e f => exact add_video_frame_max_eq e f b
  | audio e f => exact add_audio_frame_max_eq e f b

/-- Video admission keeps the video deque within max(capacity, 1). -/
theorem add_video_frame_video_bound (e : Bool) (f : Option SourceFrame) (b : FrameBuffer)
    (h : b.video_frames.length ≤ max b.max_frames 1) :
    (add_video_frame e f b).1.video_frames.length ≤ max b.max_frames 1 := by
  have h1 : 1 ≤ max b.max_frames 1 := le_max_right _ _
  have h2 : b.max_frames ≤ max b.max_frames 1 := le_max_left _ _
  cases e <;> cases f <;> simp only [add_video_frame] <;> try exact h
  split_ifs with hfull hvalid hvalid <;>
    simp only [List.length_append, List.length_tail, List.length_cons,
      List.length_nil] <;> omega

/-- Audio admission keeps the audio deque within max(capacity, 1). -/
theorem add_audio_frame_audio_bound (e : Bool) (f : Option SourceAudio) (b : FrameBuffer)
    (h : b.audio_frames.length ≤ max b.max_frames 1) :
    (add_audio_frame e f b).1.audio_frames.length ≤ max b.max_frames 1 := by
  have h1 : 1 ≤ max b.max_frames 1 := le_max_right _ _
  have h2 : b.max_frames ≤ max b.max_frames 1 := le_max_left _ _
  cases e <;> cases f <;> simp only [add_audio_frame] <;> try exact h
  split_ifs with hfull <;>
    simp only [List.length_append, List.length_tail, List.length_cons,
      List.length_nil] <;> omega

/-- One admission keeps the video deque within max(capacity, 1). -/
theorem stepAdmission_video_bound (a : Admission) (b : FrameBuffer)
    (h : b.video_frames.length ≤ max b.max_frames 1) :
    (stepAdmission a b).video_frames.length ≤ max b.max_frames 1 := by
  cases a with
  | video e f => exact add_video_frame_video_bound e f b h
  | audio e f => rw [stepAdmission, add_audio_frame_video_eq]; exact h

/-- One admission keeps the audio deque within max(capacity, 1). -/
theorem stepAdmission_audio_bound (a : Admission) (b : FrameBuffer)
    (h : b.audio_frames.length ≤ max b.max_frames 1) :
    (stepAdmission a b).audio_frames.length ≤ max b.max_frames 1 := by
  cases a with
  | video e f => rw [stepAdmission, add_video_frame_audio_eq]; exact h
  | audio e f => exact add_audio_frame_audio_bound e f b h

/-- Invariant of a run of admissions: capacity untouched, both deque
sizes within max(capacity, 1). -/
theorem runAdmissions_inv (adms : List Admission) :
    ∀ b : FrameBuffer,
      b.video_frames.length ≤ max b.max_frames 1 →
      b.audio_frames.length ≤ max b.max_frames 1 →
      (runAdmissions adms b).max_frames = b.max_frames ∧
      (runAdmissions adms b).video_frames.length ≤ max b.max_frames 1 ∧
      (runAdmissions adms b).audio_frames.length ≤ max b.max_frames 1 := by
  induction adms with
  | nil => intro b hv ha; exact ⟨rfl, hv, ha⟩
  | cons a t ih =>
    intro b hv ha
    have hstep := stepAdmission_max_frames a b
    have h1 := stepAdmission_video_bound a b hv
    have h2 := stepAdmission_audio_bound a b ha
    have h3 := ih (stepAdmission a b) (by rw [hstep]; exact h1) (by rw [hstep]; exact h2)
    simpa [runAdmissions, List.foldl_cons, hstep] using h3

/-- C1 (amended): for every FrameBuffer and every sequence of video
and audio admissions (valid or invalid, enabled or disabled), the
video and audio deque sizes never exceed max(max_frames, 1); in
particular they never exceed max_frames whenever max_frames >= 1.
The extra slack of one frame is needed exactly for capacity 0, where
the evict-then-append order lets a valid admission land in the deque
(see the counterexample). -/
theorem c1_sizes_bounded (m : Nat) (adms : List Admission) :
    (runAdmissions adms
      { video_frames := [], audio_frames := [], max_frames := m }).video_frames.length ≤
        max m 1 ∧
    (runAdmissions adms
      { video_frames := [], audio_frames := [], max_frames := m }).audio_frames.length ≤
        max m 1 := by
  have h := runAdmissions_inv adms
    { video_frames := [], audio_frames := [], max_frames := m } (by simp) (by simp)
  exact ⟨h.2.1, h.2.2⟩

/-- C1 counterexample: a FrameBuffer of capacity 0 (the default
constructor) ends with a video deque larger than max_frames after one
valid video admission, because the admission evicts first (from an
empty deque - undefined behavior in C++, a no-op here) and then
appends. -/
theorem c1_counterexample :
    ¬ ((runAdmissions [Admission.video true (some ⟨2, 2, 0, 0, [], []⟩)]
        { video_frames := [], audio_frames := [], max_frames := 0 }).video_frames.length ≤
      (runAdmissions [Admission.video true (some ⟨2, 2, 0, 0, [], []⟩)]
        { video_frames := [], audio_frames := [], max_frames := 0 }).max_frames) := by
  decide

/-- C8: a FrameBuffer constructed with capacity 0 (max_frames = 0, as
by the default constructor) does store a frame: a single valid video
admission first runs the eviction branch against the empty deque
(front and pop_front on an empty std::deque - undefined behavior in
C++, modelled as a no-op) and then appends the frame, so the snapshot
contains that frame instead of staying empty. -/
theorem c8_capacity_zero_stores :
    (runAdmissions [Admission.video true (some ⟨4, 4, 0, 0, [some 5], [4]⟩)]
      { video_frames := [], audio_frames := [], max_frames := 0 }).video_frames =
      [some ⟨4, 4, 0, 0, [some 5], [4]⟩] ∧
    get_video_frames
      (runAdmissions [Admission.video true (some ⟨4, 4, 0, 0, [some 5], [4]⟩)]
        { video_frames := [], audio_frames := [], max_frames := 0 }) ≠ [] := by
  constructor <;> decide

/-- C9: the lock-event trace of a live playback of a non-empty ring
with a resolvable sink.  The buffer_mutex is acquired at entry and
released only at return, so the frame emission and the 33 ms pacing
sleep both happen while the mutex is held, contradicting the claim
that the mutex is released before the paced emission loop. -/
theorem c9_mutex_held_across_sleep :
    play_cached_frames_locktrace
      [("A", { video_frames := [some ⟨2, 2, 0, 0, [some 1], [2]⟩],
               audio_frames := [], max_frames := 1800 })]
      ["ReplaySource"] "A" =
      [LockEv.acquire, LockEv.videoOut 0, LockEv.sleepMs 33, LockEv.release] := by
  decide

/-- C7: a ReplayScene request whose scene field is the empty string,
and one whose scene field is missing, are both accepted: the host's
obs_data_get_string yields the empty string (never a null pointer), so
the handler's null check cannot fire; the response carries
success = true with no error and a worker for scene "" is spawned. -/
theorem c7_empty_scene_accepted :
    (on_replay_request ⟨["SceneB", "Replay", "ReplaySource"], some "SceneB", "", []⟩
        [("scene", "")]).2 =
      ({ success := some true, error := none }, [""]) ∧
    (on_replay_request ⟨["SceneB", "Replay", "ReplaySource"], some "SceneB", "", []⟩
        []).2 =
      ({ success := some true, error := none }, [""]) := by
  constructor <;> rfl

/-- Validity predicate actually enforced on stored video frames:
non-null shared_ptr and positive dimensions. -/
def videoValidOpt (o : Option SourceFrame) : Bool :=
  match o with
  | some f => (f.width != 0) && (f.height != 0)
  | none => false

/-- One admission preserves that every retained video frame is
non-null with positive dimensions. -/
theorem stepAdmission_video_valid (a : Admission) (b : FrameBuffer)
    (h : b.video_frames.all videoValidOpt = true) :
    (stepAdmission a b).video_frames.all videoValidOpt = true := by
  cases a with
  | video e f =>
    cases e <;> cases f <;> simp only [stepAdmission, add_video_frame] <;> try exact h
    have htail := all_tail_of_all videoValidOpt b.video_frames h
    split_ifs with hvalid hfull1 hfull2
    · simp only [List.all_append, List.all_cons, List.all_nil, Bool.and_eq_true,
        videoValidOpt, bne_iff_ne, ne_eq]
      exact ⟨htail, ⟨by omega, by omega⟩, trivial⟩
    · simp only [List.all_append, List.all_cons, List.all_nil, Bool.and_eq_true,
        videoValidOpt, bne_iff_ne, ne_eq]
      exact ⟨h, ⟨by omega, by omega⟩, trivial⟩
    · exact htail
    · exact h
  | audio e f => rw [stepAdmission, add_audio_frame_video_eq]; exact h

/-- C6 (amended): the only validation the code performs is the one on
video dimensions: after any sequence of admissions starting from a
fresh buffer, every retained video frame is non-null and has positive
width and height.  No such guarantee exists for plane buffers or for
audio frames (see the counterexample): audio admission checks only
that the pointer is non-null, so zero-sample-count frames and null
plane buffers are stored. -/
theorem c6_video_dimensions_enforced (m : Nat) (adms : List Admission) :
    (runAdmissions adms
      { video_frames := [], audio_frames := [], max_frames := m }).video_frames.all
        videoValidOpt = true := by
  suffices h : ∀ b : FrameBuffer, b.video_frames.all videoValidOpt = true →
      (runAdmissions adms b).video_frames.all videoValidOpt = true by
    exact h { video_frames := [], audio_frames := [], max_frames := m } (by simp)
  induction adms with
  | nil => intro b hb; exact hb
  | cons a t ih =>
    intro b hb
    have h1 := stepAdmission_video_valid a b hb
    simpa [runAdmissions, List.foldl_cons] using ih (stepAdmission a b) h1

/-- C6 counterexample: an audio frame with sample count 0 and a null
plane buffer is admitted and retained, so not every retained frame has
non-null plane buffers and a positive sample count. -/
theorem c6_counterexample :
    (add_audio_frame true (some ⟨0, [none]⟩)
        { video_frames := [], audio_frames := [], max_frames := 10 }).1.audio_frames =
      [some ⟨0, [none]⟩] ∧
    ((some (⟨0, [none]⟩ : SourceAudio)).elim false
      (fun a => (a.frames != 0) && a.data.all Option.isSome)) = false := by
  constructor <;> decide

/-- The emission loop embedded from the source coincides with the
loop described by the spec's words. -/
theorem playLoop_eq_specEmitLoop (au : List (Option SourceAudio)) :
    ∀ (vs : List (Option SourceFrame)) (i : Nat),
      playLoop au vs i = specEmitLoop au vs i := by
  intro vs
  induction vs with
  | nil => intro i; rfl
  | cons v rest ih => intro i; simp [playLoop, specEmitLoop, ih]

/-- C3: playback of a scene whose ring exists.  If the video snapshot
is empty the call fails with NoCachedFrames and emits nothing; if it
is non-empty and the ReplaySource sink resolves, the call succeeds and
emits exactly the spec's interleaving: per video index i, the audio
element at i first when i is within the audio snapshot and non-null,
then the video element at i when non-null, then a 33 ms pause. -/
theorem c3_playback_cases (buffers : List (String × FrameBuffer))
    (sources : List String) (scene_name : String) (b : FrameBuffer)
    (hb : buffers.lookup scene_name = some b) :
    (b.video_frames = [] →
      play_cached_frames buffers sources scene_name = ([], some PlayErr.noCachedFrames)) ∧
    (b.video_frames ≠ [] → REPLAY_SOURCE_NAME ∈ sources →
      play_cached_frames buffers sources scene_name =
        (specEmitLoop (get_audio_frames b) (get_video_frames b) 0, none)) := by
  constructor
  · intro he
    simp [play_cached_frames, hb, get_video_frames, he]
  · intro hne hs
    simp [play_cached_frames, hb, get_video_frames, get_audio_frames,
      List.isEmpty_iff, hne, hs, playLoop_eq_specEmitLoop]

/-- C3 witness: a ring with one video frame and one audio frame plays
back as the interleaving computed by the spec's loop. -/
theorem c3_playback_cases_witness :
    play_cached_frames
        [("A", { video_frames := [some ⟨2, 2, 0, 0, [some 1], [2]⟩],
                 audio_frames := [some ⟨4, [some 9]⟩], max_frames := 1800 })]
        ["ReplaySource"] "A" =
      (specEmitLoop
        (get_audio_frames { video_frames := [some ⟨2, 2, 0, 0, [some 1], [2]⟩],
                            audio_frames := [some ⟨4, [some 9]⟩], max_frames := 1800 })
        (get_video_frames { video_frames := [some ⟨2, 2, 0, 0, [some 1], [2]⟩],
                            audio_frames := [some ⟨4, [some 9]⟩], max_frames := 1800 }) 0,
       none) :=
  (c3_playback_cases _ _ _ _ (by decide)).2 (by decide) (by decide)

/-- C10: every ReplayScene request is answered success = true with no
error and exactly one detached worker spawned for the string read from
the scene field, and the handler itself performs no program scene
switch; nothing of the worker's later fate can reach the response,
which is fixed before the worker runs. -/
theorem c10_handler_always_success (fe : Frontend) (request : List (String × String)) :
    (on_replay_request fe request).2.1 = { success := some true, error := none } ∧
    (on_replay_request fe request).2.2 = [obs_data_get_string request "scene"] ∧
    (on_replay_request fe request).1.current = fe.current := by
  refine ⟨rfl, rfl, ?_⟩
  simp only [on_replay_request, create_replay_scene_and_source]
  split_ifs <;> rfl

/-- C5 (amended): an invalid video frame (zero width or zero height)
is never appended, but the admission is not free of effects: when the
deque already holds at least max_frames frames the oldest frame is
still evicted - its planes are freed and the size drops by one - and
in no case are the plane buffers of the rejected frame released by the
call.  The audio deque is untouched. -/
theorem c5_invalid_admission (b : FrameBuffer) (f : SourceFrame)
    (hinv : f.width = 0 ∨ f.height = 0) :
    (add_video_frame true (some f) b).1.video_frames =
      (if b.max_frames ≤ b.video_frames.length then b.video_frames.tail
       else b.video_frames) ∧
    (add_video_frame true (some f) b).2 =
      (if b.max_frames ≤ b.video_frames.length then
        (match b.video_frames.head? with
         | some o => freedOfVideo o
         | none => [])
       else []) ∧
    (add_video_frame true (some f) b).1.audio_frames = b.audio_frames := by
  have hnv : ¬ (0 < f.width ∧ 0 < f.height) := by omega
  simp [add_video_frame, hnv]

/-- C5 witness: on a full ring of capacity 1 the invalid admission
evicts the stored frame (freeing its plane 3) and stores nothing, and
the rejected frame's plane 7 is not freed. -/
theorem c5_invalid_admission_witness :
    ((⟨0, 2, 0, 0, [some 7], [0]⟩ : SourceFrame).width = 0 ∨
      (⟨0, 2, 0, 0, [some 7], [0]⟩ : SourceFrame).height = 0) ∧
    ((add_video_frame true (some ⟨0, 2, 0, 0, [some 7], [0]⟩)
        { video_frames := [some ⟨2, 2, 0, 0, [some 3], [2]⟩],
          audio_frames := [], max_frames := 1 }).1.video_frames =
      (if (1 : Nat) ≤ ([some (⟨2, 2, 0, 0, [some 3], [2]⟩ : SourceFrame)] :
            List (Option SourceFrame)).length then
        ([some (⟨2, 2, 0, 0, [some 3], [2]⟩ : SourceFrame)] :
            List (Option SourceFrame)).tail
       else [some ⟨2, 2, 0, 0, [some 3], [2]⟩])) := by
  constructor
  · exact Or.inl rfl
  · exact (c5_invalid_admission
      { video_frames := [some ⟨2, 2, 0, 0, [some 3], [2]⟩],
        audio_frames := [], max_frames := 1 }
      ⟨0, 2, 0, 0, [some 7], [0]⟩ (Or.inl rfl)).1

/-- C5 counterexample: the claim that an invalid admission leaves the
video deque's size unchanged fails on a full ring of capacity 1: the
size drops from 1 to 0 because the oldest frame is evicted before the
validation runs. -/
theorem c5_counterexample :
    (add_video_frame true (some ⟨0, 2, 0, 0, [some 7], [0]⟩)
        { video_frames := [some ⟨2, 2, 0, 0, [some 3], [2]⟩],
          audio_frames := [], max_frames := 1 }).1.video_frames.length ≠
      ({ video_frames := [some ⟨2, 2, 0, 0, [some 3], [2]⟩],
         audio_frames := [], max_frames := 1 } : FrameBuffer).video_frames.length := by
  decide

/-- Running admissions over a concatenation splits into the two runs,
with the traces concatenated. -/
theorem runVideo_append (xs ys : List SourceFrame) (b : FrameBuffer) :
    runVideo (xs ++ ys) b =
      ((runVideo ys (runVideo xs b).1).1,
       (runVideo xs b).2 ++ (runVideo ys (runVideo xs b).1).2) := by
  induction xs generalizing b with
  | nil => simp [runVideo]
  | cons f t ih => simp [runVideo, ih, List.append_assoc]

/-- Filling phase: while there is room for the whole batch, valid
admissions append in order and evict nothing. -/
theorem runVideo_fill (fs : List SourceFrame) :
    ∀ b : FrameBuffer, (∀ f ∈ fs, 0 < f.width ∧ 0 < f.height) →
      b.video_frames.length + fs.length ≤ b.max_frames →
      runVideo fs b =
        ({ b with video_frames := b.video_frames ++ fs.map some },
         fs.map Event.appendedVideo) := by
  induction fs with
  | nil => intro b _ _; simp [runVideo]
  | cons f t ih =>
    intro b hval hlen
    have hnofull : ¬ (b.max_frames ≤ b.video_frames.length) := by
      simp only [List.length_cons] at hlen; omega
    have hv : 0 < f.width ∧ 0 < f.height := hval f (by simp)
    have hstep : add_video_frame true (some f) b =
        ({ b with video_frames := b.video_frames ++ [some f] },
         [Event.appendedVideo f]) := by
      simp [add_video_frame, hnofull, hv]
    have hrec := ih { b with video_frames := b.video_frames ++ [some f] }
      (fun g hg => hval g (by simp [hg]))
      (by simp only [List.length_append, List.length_cons, List.length_nil] at hlen ⊢; omega)
    simp only [runVideo, hstep, hrec, List.map_cons]
    simp [List.append_assoc]

/-- Steady phase: once the deque is exactly full (capacity at least
one), each valid admission frees the planes of the current head,
evicts it and appends the new frame, pairing the j-th evicted element
with the j-th admitted frame. -/
theorem runVideo_steady (fs : List SourceFrame) :
    ∀ b : FrameBuffer, (∀ f ∈ fs, 0 < f.width ∧ 0 < f.height) →
      b.video_frames.length = b.max_frames → 1 ≤ b.max_frames →
      runVideo fs b =
        ({ b with video_frames := (b.video_frames ++ fs.map some).drop fs.length },
         (((b.video_frames ++ fs.map some).take fs.length).zip fs).flatMap
           (fun p => freedOfVideo p.1 ++ [Event.appendedVideo p.2])) := by
  induction fs with
  | nil => intro b _ _ _; simp [runVideo]
  | cons f t ih =>
    intro b hval hlen hmax
    obtain ⟨o, vtail, hv⟩ : ∃ o vtail, b.video_frames = o :: vtail := by
      cases hb : b.video_frames with
      | nil => rw [hb] at hlen; simp at hlen; omega
      | cons o vtail => exact ⟨o, vtail, rfl⟩
    have hfull : b.max_frames ≤ b.video_frames.length := le_of_eq hlen.symm
    have hvld : 0 < f.width ∧ 0 < f.height := hval f (by simp)
    have hfull2 : b.max_frames ≤ vtail.length + 1 := by
      rw [hv] at hfull; simpa using hfull
    have hstep : add_video_frame true (some f) b =
        ({ b with video_frames := vtail ++ [some f] },
         freedOfVideo o ++ [Event.appendedVideo f]) := by
      simp [add_video_frame, hv, hvld, hfull2]
    have hlen1 : (vtail ++ [some f]).length = b.max_frames := by
      rw [hv] at hlen
      simp only [List.length_append, List.length_cons, List.length_nil] at hlen ⊢
      omega
    have hrec := ih { b with video_frames := vtail ++ [some f] }
      (fun g hg => hval g (by simp [hg])) hlen1 hmax
    simp only [runVideo, hstep, hrec]
    rw [hv]
    simp [List.append_assoc, List.take_succ_cons, List.zip_cons_cons,
      List.flatMap_cons, List.length_cons]

/-- C2: a FrameBuffer of capacity N >= 1, after N + k valid enabled
video admissions, holds exactly the last N admitted frames in
admission order, and the event trace shows that the first N calls only
append while call N + j (j-th eviction) first frees the plane buffers
of the j-th admitted frame and then appends its replacement: the freed
planes of each of the first k frames appear in the trace immediately
before the corresponding append. -/
theorem c2_fifo_eviction (N k : Nat) (fs : List SourceFrame)
    (hN : 1 ≤ N) (hlen : fs.length = N + k)
    (hval : ∀ f ∈ fs, 0 < f.width ∧ 0 < f.height) :
    (runVideo fs
      { video_frames := [], audio_frames := [], max_frames := N }).1.video_frames =
      (fs.drop k).map some ∧
    (runVideo fs
      { video_frames := [], audio_frames := [], max_frames := N }).2 =
      (fs.take N).map Event.appendedVideo ++
      ((fs.take k).zip (fs.drop N)).flatMap
        (fun p => (p.1.data.filterMap id).map Event.freed ++
          [Event.appendedVideo p.2]) := by
  have hsplit : fs.take N ++ fs.drop N = fs := List.take_append_drop N fs
  have hlen_take : (fs.take N).length = N := by
    rw [List.length_take]; omega
  have hlen_drop : (fs.drop N).length = k := by
    rw [List.length_drop]; omega
  have h1 := runVideo_fill (fs.take N)
    { video_frames := [], audio_frames := [], max_frames := N }
    (fun g hg => hval g (List.take_subset N fs hg))
    (by simp [hlen_take])
  simp only [List.nil_append] at h1
  have h2 := runVideo_steady (fs.drop N)
    { video_frames := (fs.take N).map some, audio_frames := [], max_frames := N }
    (fun g hg => hval g (List.drop_subset N fs hg))
    (by simp only [List.length_map]; exact hlen_take) hN
  have hrun := runVideo_append (fs.take N) (fs.drop N)
    { video_frames := [], audio_frames := [], max_frames := N }
  rw [hsplit] at hrun
  rw [hrun, h1]
  simp only [h2]
  constructor
  · show ((((fs.take N).map some) ++ (fs.drop N).map some).drop (fs.drop N).length) =
      (fs.drop k).map some
    rw [hlen_drop, ← List.map_append, hsplit, List.map_drop]
  · show (fs.take N).map Event.appendedVideo ++
      (((((fs.take N).map some) ++ (fs.drop N).map some).take (fs.drop N).length).zip
        (fs.drop N)).flatMap (fun p => freedOfVideo p.1 ++ [Event.appendedVideo p.2]) = _
    rw [hlen_drop, ← List.map_append, hsplit, ← List.map_take, List.zip_map_left,
      List.flatMap_map]
    simp [freedOfVideo, Prod.map]

/-- C2 witness: capacity 2, three valid admissions; the ring keeps the
last two frames in order and the trace frees the first frame's plane
(buffer 11) right before the third append. -/
theorem c2_fifo_eviction_witness :
    (1 : Nat) ≤ 2 ∧
    ((runVideo [⟨2, 2, 0, 0, [some 11], [2]⟩, ⟨2, 2, 0, 1, [some 12], [2]⟩,
        ⟨2, 2, 0, 2, [some 13], [2]⟩]
      { video_frames := [], audio_frames := [], max_frames := 2 }).1.video_frames =
      (([⟨2, 2, 0, 0, [some 11], [2]⟩, ⟨2, 2, 0, 1, [some 12], [2]⟩,
        ⟨2, 2, 0, 2, [some 13], [2]⟩] : List SourceFrame).drop 1).map some ∧
    (runVideo [⟨2, 2, 0, 0, [some 11], [2]⟩, ⟨2, 2, 0, 1, [some 12], [2]⟩,
        ⟨2, 2, 0, 2, [some 13], [2]⟩]
      { video_frames := [], audio_frames := [], max_frames := 2 }).2 =
      (([⟨2, 2, 0, 0, [some 11], [2]⟩, ⟨2, 2, 0, 1, [some 12], [2]⟩,
        ⟨2, 2, 0, 2, [some 13], [2]⟩] : List SourceFrame).take 2).map Event.appendedVideo ++
      ((([⟨2, 2, 0, 0, [some 11], [2]⟩, ⟨2, 2, 0, 1, [some 12], [2]⟩,
        ⟨2, 2, 0, 2, [some 13], [2]⟩] : List SourceFrame).take 1).zip
        (([⟨2, 2, 0, 0, [some 11], [2]⟩, ⟨2, 2, 0, 1, [some 12], [2]⟩,
        ⟨2, 2, 0, 2, [some 13], [2]⟩] : List SourceFrame).drop 2)).flatMap
        (fun p => (p.1.data.filterMap id).map Event.freed ++
          [Event.appendedVideo p.2])) :=
  ⟨by decide,
   c2_fifo_eviction 2 1
     [⟨2, 2, 0, 0, [some 11], [2]⟩, ⟨2, 2, 0, 1, [some 12], [2]⟩,
      ⟨2, 2, 0, 2, [some 13], [2]⟩]
     (by decide) (by decide) (by decide)⟩

/-- Switching scenes never changes the set of sources. -/
theorem switch_to_scene_sources (fe : Frontend) (name : String) :
    (switch_to_scene fe name).1.sources = fe.sources := by
  simp only [switch_to_scene]
  split_ifs <;> rfl

/-- Switching scenes never changes the recorded previous scene name. -/
theorem switch_to_scene_previous (fe : Frontend) (name : String) :
    (switch_to_scene fe name).1.previous_scene_name = fe.previous_scene_name := by
  simp only [switch_to_scene]
  split_ifs <;> rfl

/-- Switching to a resolvable scene sets the program to it. -/
theorem switch_to_scene_mem (fe : Frontend) (name : String) (h : name ∈ fe.sources) :
    switch_to_scene fe name = ({ fe with current := some name }, [RAction.switched name]) := by
  simp [switch_to_scene, h]

/-- C4: the switch-back is unreachable on playback failure.  At a
concrete input whose scene has no ring, the worker records the
previous scene name and switches the program to Replay, then
play_cached_frames takes its error path and the worker deadlocks there
(log_error re-locks the buffer_mutex held since line 619), so the
action trace contains no switch back to SceneA and the program is left
on the Replay scene, not on the scene active before the call as the
claim says. -/
theorem c4_switch_back_unreachable :
    play_replay_and_return
      ⟨["SceneA", "Replay", "ReplaySource"], some "SceneA", "x", []⟩ [] "A" =
      WorkerResult.deadlocked
        ⟨["SceneA", "Replay", "ReplaySource"], some "Replay", "SceneA", []⟩
        [RAction.setPrevious "SceneA", RAction.switched "Replay"] ∧
    (⟨["SceneA", "Replay", "ReplaySource"], some "Replay", "SceneA", []⟩ :
        Frontend).current ≠
      (⟨["SceneA", "Replay", "ReplaySource"], some "SceneA", "x", []⟩ :
        Frontend).current := by
  constructor <;> decide
